import Mathlib

/-!
Verification development for the MicroAI-Paygate repository.

Shallow embedding of:
* the Go token-bucket rate limiter (`gateway/ratelimit.go`), with Go
  `float64` arithmetic modelled exactly over `ℚ` and wall-clock instants as
  rational seconds;
* the TypeScript `PaymentService` (`src/services/payment.ts`): the in-memory
  nonce store, `createPaymentContext` and `verifyPayment`, with
  `ethers.verifyTypedData` abstracted as a recovery oracle that either
  returns the recovered signer or throws (`Option`);
* the Go gateway handler `handleSummarize` / `createPaymentContext`
  (`gateway/main.go`), with the remote verifier and the AI provider
  abstracted as oracles, and `uuid.New().String()` modelled by its
  8-4-4-4-12 lowercase-hex rendering of 16 bytes;
* components of the repository that are referenced but whose implementation
  file is not part of the analysed tree (the Rust verifier's timestamp
  window check, the gateway cache middleware) are modelled from the spec,
  each marked as such in its doc comment.
-/

namespace Paygate

/-! ## Token bucket rate limiter — gateway/ratelimit.go -/

/-- One per-key bucket: `tokens` (Go `float64`, modelled over `ℚ`) and
`lastCheck`, the last refill instant in seconds. -/
structure Bucket where
  tokens : ℚ
  lastCheck : ℚ
deriving Repr, DecidableEq

/-- The `TokenBucket` limiter configuration: refill rate in tokens/second and
the burst capacity. -/
structure TokenBucket where
  rate : ℚ
  burst : ℕ
deriving Repr, DecidableEq

/-- `NewTokenBucket`: clamps non-positive `rpm`/`burst` to 1 and converts
requests-per-minute to tokens-per-second (`rate = rpm / 60`). -/
def NewTokenBucket (rpm burst : Int) : TokenBucket :=
  let rpm' : Int := if rpm ≤ 0 then 1 else rpm
  let burst' : Int := if burst ≤ 0 then 1 else burst
  { rate := (rpm' : ℚ) / 60, burst := burst'.toNat }

/-- `getBucket` on a key with no bucket yet: a fresh bucket holding `burst`
tokens with `lastCheck = now`. -/
def newBucket (tb : TokenBucket) (now : ℚ) : Bucket :=
  { tokens := (tb.burst : ℚ), lastCheck := now }

/-- `TokenBucket.AllowN`: refill `min(burst, tokens + elapsed*rate)`, stamp
`lastCheck := now`, then consume `n` tokens iff at least `n` are present. -/
def allowN (tb : TokenBucket) (b : Bucket) (now : ℚ) (n : ℕ) : Bool × Bucket :=
  let elapsed := now - b.lastCheck
  let tokens := min (tb.burst : ℚ) (b.tokens + elapsed * tb.rate)
  if (n : ℚ) ≤ tokens then
    (true, { tokens := tokens - (n : ℚ), lastCheck := now })
  else
    (false, { tokens := tokens, lastCheck := now })

/-- `TokenBucket.Allow` delegates to `AllowN` with `n = 1`. -/
def allow (tb : TokenBucket) (b : Bucket) (now : ℚ) : Bool × Bucket :=
  allowN tb b now 1

/-- `TokenBucket.GetRemaining`: computes the refill formula without writing
back (`lastCheck` untouched) and floors the token count to an integer. -/
def getRemaining (tb : TokenBucket) (b : Bucket) (now : ℚ) : Int × Bucket :=
  let elapsed := now - b.lastCheck
  let tokens := min (tb.burst : ℚ) (b.tokens + elapsed * tb.rate)
  (⌊tokens⌋, b)

/-- `TokenBucket.GetResetTime`: computes the same refill formula read-only;
returns `now` (as Unix seconds, floored) when already at capacity, else
`now + (burst - tokens)/rate`. -/
def getResetTime (tb : TokenBucket) (b : Bucket) (now : ℚ) : Int × Bucket :=
  let elapsed := now - b.lastCheck
  let currentTokens := min (tb.burst : ℚ) (b.tokens + elapsed * tb.rate)
  let tokensNeeded := (tb.burst : ℚ) - currentTokens
  if tokensNeeded ≤ 0 then (⌊now⌋, b)
  else (⌊now + tokensNeeded / tb.rate⌋, b)

/-- The token-bucket step exactly as the specification words it: compute
`elapsed = now - lastRefill`, set `tokens = min(burst, tokens + elapsed*rate)`,
update `lastRefill = now`, then allow (subtracting `n`) iff `tokens ≥ n`.
Stated separately from `allowN` (which is translated from the Go source) so
the two can be compared. -/
def allowN_specSide (tb : TokenBucket) (b : Bucket) (now : ℚ) (n : ℕ) : Bool × Bucket :=
  let elapsed := now - b.lastCheck
  let tokens := min (tb.burst : ℚ) (b.tokens + elapsed * tb.rate)
  let lastRefill := now
  if (n : ℚ) ≤ tokens then
    (true, { tokens := tokens - (n : ℚ), lastCheck := lastRefill })
  else
    (false, { tokens := tokens, lastCheck := lastRefill })

/-- One observable operation against a single key's bucket. -/
inductive BucketOp where
  | allowOp (now : ℚ) (n : ℕ)
  | remainingOp (now : ℚ)
  | resetOp (now : ℚ)
deriving Repr, DecidableEq

/-- The wall-clock instant at which an operation runs. -/
def BucketOp.time : BucketOp → ℚ
  | .allowOp now _ => now
  | .remainingOp now => now
  | .resetOp now => now

/-- The bucket state after one operation. -/
def stepBucket (tb : TokenBucket) (b : Bucket) : BucketOp → Bucket
  | .allowOp now n => (allowN tb b now n).2
  | .remainingOp now => (getRemaining tb b now).2
  | .resetOp now => (getResetTime tb b now).2

/-- All observation points of a run: the initial bucket and the bucket after
each successive operation. -/
def statesOf (tb : TokenBucket) (b : Bucket) : List BucketOp → List Bucket
  | [] => [b]
  | op :: rest => b :: statesOf tb (stepBucket tb b op) rest

/-- Operation times are nondecreasing and never before instant `t`
(Go's `time.Now` is monotonic within a process). -/
def chron (t : ℚ) : List BucketOp → Prop
  | [] => True
  | op :: rest => t ≤ op.time ∧ chron op.time rest

/-- `burst`-many consecutive `Allow` calls at one fixed instant. -/
def repeatAllow (tb : TokenBucket) (b : Bucket) (now : ℚ) : ℕ → List Bool × Bucket
  | 0 => ([], b)
  | k + 1 =>
    let r := allow tb b now
    let rest := repeatAllow tb r.2 now k
    (r.1 :: rest.1, rest.2)

/-! ## TypeScript PaymentService — src/services/payment.ts -/

/-- `PaymentContext` as in the TypeScript service (with the `timestamp`
field of the changelog's message shape). -/
structure PaymentContext where
  recipient : String
  token : String
  amount : String
  chainId : Int
  nonce : String
  timestamp : Int
deriving Repr, DecidableEq

/-- The resolved value of `verifyPayment`'s promise. -/
structure VerifyResult where
  isValid : Bool
  error : Option String
  signer : Option String
deriving Repr, DecidableEq

/-- The in-memory `nonceStore : Set<string>`, modelled as a duplicate-free
list of nonces. -/
abbrev NonceStore := List String

/-- `nonceStore.add`: a set insert. -/
def storeAdd (s : NonceStore) (n : String) : NonceStore :=
  if n ∈ s then s else n :: s

/-- `nonceStore.delete`: removes every occurrence, as a set delete does. -/
def storeDelete (s : NonceStore) (n : String) : NonceStore :=
  s.filter (fun x => x ≠ n)

/-- `PaymentService.createPaymentContext`: draws a fresh nonce (the uuid
generator abstracted as the supplied string), records it in the store, and
returns the context priced at `price` and stamped `nowSec`. -/
def createPaymentContext (freshNonce : String) (nowSec : Int)
    (recipient tokenSym price : String) (chainId : Int)
    (store : NonceStore) : PaymentContext × NonceStore :=
  ({ recipient := recipient, token := tokenSym, amount := price,
     chainId := chainId, nonce := freshNonce, timestamp := nowSec },
   storeAdd store freshNonce)

/-- `PaymentService.verifyPayment`: rejects when the presented nonce is not
in the store; otherwise runs EIP-712 recovery (`recover`, abstracting
`ethers.verifyTypedData`; `none` means it threw); on successful recovery it
deletes the nonce (replay prevention) and reports the signer; a thrown
recovery is caught and reported as failure with the store untouched. -/
def verifyPayment (recover : PaymentContext → String → Option String)
    (store : NonceStore) (ctx : PaymentContext) (sig : String) :
    VerifyResult × NonceStore :=
  if ctx.nonce ∈ store then
    match recover ctx sig with
    | some signerAddress =>
      ({ isValid := true, error := none, signer := some signerAddress },
       storeDelete store ctx.nonce)
    | none =>
      ({ isValid := false, error := some "Signature verification failed",
         signer := none }, store)
  else
    ({ isValid := false, error := some "Invalid or expired nonce",
       signer := none }, store)

/-- A whole sequence of `verifyPayment` calls threaded through the store,
returning each call's `isValid` flag and the final store. -/
def runVerifyCalls (recover : PaymentContext → String → Option String)
    (store : NonceStore) : List (PaymentContext × String) → List Bool × NonceStore
  | [] => ([], store)
  | c :: rest =>
    let r := verifyPayment recover store c.1 c.2
    let rs := runVerifyCalls recover r.2 rest
    (r.1.isValid :: rs.1, rs.2)

/-! ## Go gateway — gateway/main.go -/

/-- The gateway's `PaymentContext` struct (no timestamp field). -/
structure GoPaymentContext where
  recipient : String
  token : String
  amount : String
  nonce : String
  chainId : Int
deriving Repr, DecidableEq

/-- The request body of the internal `/verify` call. -/
structure GoVerifyRequest where
  context : GoPaymentContext
  signature : String
deriving Repr, DecidableEq

/-- The verifier's reply. -/
structure GoVerifyResponse where
  isValid : Bool
  recoveredAddress : String
  error : String
deriving Repr, DecidableEq

/-- One lowercase hexadecimal digit. -/
def hexChar (n : ℕ) : Char :=
  if n < 10 then Char.ofNat (48 + n) else Char.ofNat (87 + n)

/-- Two-digit lowercase hex rendering of one byte. -/
def byteHex (b : ℕ) : String :=
  String.mk [hexChar (b / 16 % 16), hexChar (b % 16)]

/-- `uuid.New().String()` from google/uuid: the 16 random bytes of a v4
UUID rendered as lowercase hex in 8-4-4-4-12 groups joined by dashes. -/
def uuidString (b : Fin 16 → ℕ) : String :=
  byteHex (b 0) ++ byteHex (b 1) ++ byteHex (b 2) ++ byteHex (b 3) ++ "-" ++
  byteHex (b 4) ++ byteHex (b 5) ++ "-" ++
  byteHex (b 6) ++ byteHex (b 7) ++ "-" ++
  byteHex (b 8) ++ byteHex (b 9) ++ "-" ++
  byteHex (b 10) ++ byteHex (b 11) ++ byteHex (b 12) ++ byteHex (b 13) ++
  byteHex (b 14) ++ byteHex (b 15)

/-- `createPaymentContext` in the Go gateway: recipient from config, token
`USDC`, amount hard-coded to `0.001`, a fresh uuid nonce, chain id 8453. -/
def goCreatePaymentContext (uuidBytes : Fin 16 → ℕ) (recipientAddr : String) :
    GoPaymentContext :=
  { recipient := recipientAddr, token := "USDC", amount := "0.001",
    nonce := uuidString uuidBytes, chainId := 8453 }

/-- The server-authoritative context the gateway reconstructs for
verification: configured recipient, `USDC`, `0.001`, chain 8453, and the
client-supplied nonce. -/
def gatewayContext (recipientAddr nonce : String) : GoPaymentContext :=
  { recipient := recipientAddr, token := "USDC", amount := "0.001",
    nonce := nonce, chainId := 8453 }

/-- The gateway's response to one metered request, tagged by origin. -/
inductive GatewayResponse where
  | paymentRequired (ctx : GoPaymentContext)
  | verifierUnavailable
  | invalidSignature (details : String)
  | badRequest
  | aiFailed (details : String)
  | ok (result : String)
deriving Repr, DecidableEq

/-- The HTTP status the gateway writes for each response shape. -/
def GatewayResponse.status : GatewayResponse → ℕ
  | .paymentRequired _ => 402
  | .verifierUnavailable => 500
  | .invalidSignature _ => 403
  | .badRequest => 400
  | .aiFailed _ => 500
  | .ok _ => 200

/-- `handleSummarize` (uncached route): empty signature or nonce header →
402 with a fresh payment context; otherwise POST the reconstructed context
and signature to the verifier (`verify`; `none` models an unreachable
verifier); an invalid verdict → 403 with the verifier's error; then bind the
body and call the AI provider (`callAI`). -/
def handleSummarize (verify : GoVerifyRequest → Option GoVerifyResponse)
    (callAI : String → Except String String)
    (uuidBytes : Fin 16 → ℕ) (recipientAddr : String)
    (signature nonce : String) (body : Option String) : GatewayResponse :=
  if signature = "" ∨ nonce = "" then
    .paymentRequired (goCreatePaymentContext uuidBytes recipientAddr)
  else
    match verify { context := gatewayContext recipientAddr nonce,
                   signature := signature } with
    | none => .verifierUnavailable
    | some verifyResp =>
      if !verifyResp.isValid then .invalidSignature verifyResp.error
      else
        match body with
        | none => .badRequest
        | some text =>
          match callAI text with
          | .error e => .aiFailed e
          | .ok summary => .ok summary

/-! ## Spec-modelled components (implementation not in the analysed tree) -/

/-- Error taxonomy of the signature verifier's timestamp window. -/
inductive SigError where
  | expired
  | futureDated
  | missingTimestamp
deriving Repr, DecidableEq

/-- The verifier's verdict restricted to the timestamp gate. -/
structure TimestampVerdict where
  valid : Bool
  errorCode : Option SigError
deriving Repr, DecidableEq

/-- Modelled from the spec: the Rust SignatureVerifier's timestamp window
check is not in the analysed tree (only the changelog's E007/E008/E009 codes
reference it). Per the spec it returns invalid with `expired` when the
timestamp is older than `now - expirySeconds`, invalid with `futureDated`
when newer than `now + clockSkewSeconds`, invalid with `missingTimestamp`
when absent, and passes otherwise (the boundary `now - expirySeconds` is
accepted). -/
def checkTimestamp (now expirySeconds clockSkewSeconds : Int)
    (ts : Option Int) : TimestampVerdict :=
  match ts with
  | none => { valid := false, errorCode := some .missingTimestamp }
  | some t =>
    if t < now - expirySeconds then
      { valid := false, errorCode := some .expired }
    else if t > now + clockSkewSeconds then
      { valid := false, errorCode := some .futureDated }
    else
      { valid := true, errorCode := none }

/-- The cached route's response, distinguishing a cache-served result from a
freshly computed one. -/
inductive CachedResponse where
  | paymentRequired (ctx : GoPaymentContext)
  | invalidSignature (details : String)
  | okCached (result : String)
  | okComputed (result : String)
deriving Repr, DecidableEq

/-- HTTP status of the cached route's response. -/
def CachedResponse.status : CachedResponse → ℕ
  | .paymentRequired _ => 402
  | .invalidSignature _ => 403
  | .okCached _ => 200
  | .okComputed _ => 200

/-- Modelled from the spec: the gateway's `CacheMiddleware` (the cached
variant of the metered route exercised by `TestCacheIntegration_FullFlow`)
is not in the analysed tree. Per the spec's cache-aside design, the route
first checks the payment headers (missing → 402 with a fresh context), then
runs signature verification to completion exactly as the cache-miss path
does, and only after a valid verdict consults the cache keyed by request
content: a hit returns the cached value, a miss computes and returns the
provider's result. -/
def serveMetered (verify : GoVerifyRequest → GoVerifyResponse)
    (cache : Option String) (computed : String)
    (uuidBytes : Fin 16 → ℕ) (recipientAddr : String)
    (signature nonce : String) : CachedResponse :=
  if signature = "" ∨ nonce = "" then
    .paymentRequired (goCreatePaymentContext uuidBytes recipientAddr)
  else
    let verifyResp := verify { context := gatewayContext recipientAddr nonce,
                               signature := signature }
    if !verifyResp.isValid then .invalidSignature verifyResp.error
    else
      match cache with
      | some v => .okCached v
      | none => .okComputed computed

/-! ## Helper lemmas -/

/-- A concrete context used by witnesses and counterexamples. -/
def ctxA : PaymentContext :=
  { recipient := "0xRecipient", token := "USDC", amount := "0.001",
    chainId := 8453, nonce := "n1", timestamp := 0 }

/-- The tokens left by a zero-cost `allowN` call are exactly the refill
formula's value. -/
theorem allowN_zero_tokens (tb : TokenBucket) (b : Bucket) (now : ℚ) :
    ((allowN tb b now 0).2).tokens =
      min (tb.burst : ℚ) (b.tokens + (now - b.lastCheck) * tb.rate) := by
  simp only [allowN]
  split <;> simp

/-- Each byte renders as two hex characters. -/
theorem byteHex_length (b : ℕ) : (byteHex b).length = 2 := rfl

/-- The dash separator is one character. -/
theorem dash_length : ("-" : String).length = 1 := rfl

/-- A uuid string is 36 characters long (32 hex digits and 4 dashes). -/
theorem uuidString_length (b : Fin 16 → ℕ) : (uuidString b).length = 36 := by
  simp [uuidString, String.length_append, byteHex_length, dash_length]

/-! ## Claims -/

/-- Claim C6: `AllowN` implements the specified token-bucket step: on each
check it computes `elapsed = now - lastRefill`, sets
`tokens = min(burst, tokens + elapsed * (rpm/60))`, updates `lastRefill` to
`now`, and allows (subtracting `n`) iff `tokens ≥ n`; and for positive
configured `rpm` the rate is exactly `rpm / 60` tokens per second. -/
theorem allowN_matches_spec_algorithm :
    ∀ (tb : TokenBucket) (b : Bucket) (now : ℚ) (n : ℕ) (rpm burst : Int),
      0 < rpm →
      allowN tb b now n = allowN_specSide tb b now n ∧
      (NewTokenBucket rpm burst).rate = (rpm : ℚ) / 60 := by
  intro tb b now n rpm burst h
  refine ⟨rfl, ?_⟩
  unfold NewTokenBucket
  rw [if_neg (by omega)]

/-- Witness for C6 at `rpm = 10`, `burst = 5`. -/
theorem allowN_matches_spec_algorithm_witness :
    (0 : Int) < 10 ∧
    (allowN (NewTokenBucket 10 5) (newBucket (NewTokenBucket 10 5) 0) 2 1 =
       allowN_specSide (NewTokenBucket 10 5) (newBucket (NewTokenBucket 10 5) 0) 2 1 ∧
     (NewTokenBucket 10 5).rate = (10 : ℚ) / 60) :=
  ⟨by decide,
   allowN_matches_spec_algorithm (NewTokenBucket 10 5)
     (newBucket (NewTokenBucket 10 5) 0) 2 1 10 5 (by decide)⟩

/-- Claim C8: `GetRemaining` and `GetResetTime` are read-only projections:
they leave the bucket untouched, `GetRemaining` floors exactly the refill
formula `AllowN` computes, and `GetResetTime` returns `now` when the bucket
is at capacity, else `now + (burst - tokens)/rate` (as Unix seconds). -/
theorem readonly_projections :
    ∀ (tb : TokenBucket) (b : Bucket) (now : ℚ),
      (getRemaining tb b now).2 = b ∧
      (getResetTime tb b now).2 = b ∧
      (getRemaining tb b now).1 = ⌊((allowN tb b now 0).2).tokens⌋ ∧
      (getResetTime tb b now).1 =
        (if (tb.burst : ℚ) ≤ ((allowN tb b now 0).2).tokens then ⌊now⌋
         else ⌊now + ((tb.burst : ℚ) - ((allowN tb b now 0).2).tokens) / tb.rate⌋) := by
  intro tb b now
  rw [allowN_zero_tokens]
  refine ⟨rfl, ?_, rfl, ?_⟩
  · simp only [getResetTime]
    split <;> rfl
  · simp only [getResetTime]
    by_cases hc :
        (tb.burst : ℚ) - min (tb.burst : ℚ) (b.tokens + (now - b.lastCheck) * tb.rate) ≤ 0
    · rw [if_pos hc, if_pos (by linarith)]
    · rw [if_neg hc, if_neg (by intro h; exact hc (by linarith))]

/-- Claim C10: when signature recovery throws, `verifyPayment` reports
`isValid = false` and leaves the nonce store unchanged; the same stored
nonce still succeeds on a later retry whose recovery succeeds, so the nonce
is consumed only after successful recovery. -/
theorem recovery_failure_preserves_nonce :
    ∀ (recover recover₂ : PaymentContext → String → Option String)
      (store : NonceStore) (ctx : PaymentContext) (sig sig₂ a : String),
      recover ctx sig = none →
      ctx.nonce ∈ store →
      recover₂ ctx sig₂ = some a →
      (verifyPayment recover store ctx sig).1.isValid = false ∧
      (verifyPayment recover store ctx sig).2 = store ∧
      (verifyPayment recover₂ store ctx sig₂).1.isValid = true := by
  intro recover recover₂ store ctx sig sig₂ a h hmem h₂
  refine ⟨?_, ?_, ?_⟩ <;> simp [verifyPayment, hmem, h, h₂]

/-- Witness for C10: a throwing recovery on the stored nonce `n1`, then a
succeeding retry. -/
theorem recovery_failure_preserves_nonce_witness :
    ((fun (_ : PaymentContext) (_ : String) => (none : Option String)) ctxA "s" = none) ∧
    ctxA.nonce ∈ (["n1"] : NonceStore) ∧
    ((fun (_ : PaymentContext) (_ : String) => some "0xA") ctxA "s2" = some "0xA") ∧
    ((verifyPayment (fun _ _ => none) ["n1"] ctxA "s").1.isValid = false ∧
     (verifyPayment (fun _ _ => none) ["n1"] ctxA "s").2 = ["n1"] ∧
     (verifyPayment (fun _ _ => some "0xA") ["n1"] ctxA "s2").1.isValid = true) :=
  ⟨rfl, by decide, rfl,
   recovery_failure_preserves_nonce (fun _ _ => none) (fun _ _ => some "0xA")
     ["n1"] ctxA "s" "s2" "0xA" rfl (by decide) rfl⟩

/-- Claim C5 counterexample: as its sources apply it, the claim says the
verification call does not consume or delete the nonce; but
`verifyPayment` on a stored nonce with successful recovery deletes the
nonce from the store, so the store is mutated. -/
theorem verifier_consumes_nonce_cex :
    (verifyPayment (fun _ _ => some "0xA") ["n1"] ctxA "sig").2 ≠ ["n1"] := by
  decide

/-- Claim C5 (amended): `verifyPayment` is pure except for consuming the
presented nonce: for every call the resulting store is exactly the input
store with the presented nonce deleted when the verdict is valid, and the
unchanged input store otherwise; no other external state exists to mutate. -/
theorem verifyPayment_frame_property :
    ∀ (recover : PaymentContext → String → Option String)
      (store : NonceStore) (ctx : PaymentContext) (sig : String),
      (verifyPayment recover store ctx sig).2 =
        (if (verifyPayment recover store ctx sig).1.isValid then
          storeDelete store ctx.nonce
         else store) := by
  intro recover store ctx sig
  by_cases hmem : ctx.nonce ∈ store
  · simp only [verifyPayment, if_pos hmem]
    cases recover ctx sig <;> simp
  · simp [verifyPayment, hmem]

/-- Claim C3: the (spec-modelled) verifier timestamp gate rejects a
timestamp older than `now - expirySeconds` as expired, rejects one newer
than `now + clockSkewSeconds` as future-dated, and accepts the boundary
timestamp exactly at `now - expirySeconds`. -/
theorem timestamp_window_rejection :
    ∀ (now e s t₁ t₂ : Int),
      0 ≤ e → 0 ≤ s →
      t₁ < now - e →
      t₂ > now + s →
      checkTimestamp now e s (some t₁) =
        { valid := false, errorCode := some .expired } ∧
      checkTimestamp now e s (some t₂) =
        { valid := false, errorCode := some .futureDated } ∧
      (checkTimestamp now e s (some (now - e))).valid = true := by
  intro now e s t₁ t₂ he hs h₁ h₂
  refine ⟨?_, ?_, ?_⟩
  · simp only [checkTimestamp]
    rw [if_pos h₁]
  · simp only [checkTimestamp]
    rw [if_neg (by omega), if_pos h₂]
  · simp only [checkTimestamp]
    rw [if_neg (by omega), if_neg (by omega)]

/-- Witness for C3 at the default window (300 s expiry, 60 s skew) around
`now = 1000`. -/
theorem timestamp_window_rejection_witness :
    (0 : Int) ≤ 300 ∧ (0 : Int) ≤ 60 ∧
    (600 : Int) < 1000 - 300 ∧ (1100 : Int) > 1000 + 60 ∧
    (checkTimestamp 1000 300 60 (some 600) =
       { valid := false, errorCode := some .expired } ∧
     checkTimestamp 1000 300 60 (some 1100) =
       { valid := false, errorCode := some .futureDated } ∧
     (checkTimestamp 1000 300 60 (some (1000 - 300))).valid = true) :=
  ⟨by decide, by decide, by decide, by decide,
   timestamp_window_rejection 1000 300 60 600 1100
     (by decide) (by decide) (by decide) (by decide)⟩

/-- Claim C9: a metered request lacking the signature or nonce header is
answered 402 with a freshly issued payment context whose nonce is the
36-character uuid rendering of 16 fresh bytes and whose amount is `0.001`. -/
theorem missing_headers_402 :
    ∀ (verify : GoVerifyRequest → Option GoVerifyResponse)
      (callAI : String → Except String String)
      (uuidBytes : Fin 16 → ℕ) (recipientAddr signature nonce : String)
      (body : Option String),
      (signature = "" ∨ nonce = "") →
      handleSummarize verify callAI uuidBytes recipientAddr signature nonce body =
        .paymentRequired (goCreatePaymentContext uuidBytes recipientAddr) ∧
      (handleSummarize verify callAI uuidBytes recipientAddr signature nonce body).status = 402 ∧
      (goCreatePaymentContext uuidBytes recipientAddr).amount = "0.001" ∧
      (goCreatePaymentContext uuidBytes recipientAddr).nonce = uuidString uuidBytes ∧
      ((goCreatePaymentContext uuidBytes recipientAddr).nonce).length = 36 := by
  intro verify callAI uuidBytes recipientAddr signature nonce body h
  have h1 : handleSummarize verify callAI uuidBytes recipientAddr signature nonce body =
      .paymentRequired (goCreatePaymentContext uuidBytes recipientAddr) := by
    unfold handleSummarize
    rw [if_pos h]
  refine ⟨h1, by rw [h1]; rfl, rfl, rfl, uuidString_length uuidBytes⟩

/-- Witness for C9: the all-zero uuid bytes and an empty signature header. -/
theorem missing_headers_402_witness :
    (("" : String) = "" ∨ ("n" : String) = "") ∧
    (handleSummarize (fun _ => none) (fun _ => .error "e") (fun _ => 0) "0xR" "" "n" none =
       .paymentRequired (goCreatePaymentContext (fun _ => 0) "0xR") ∧
     (handleSummarize (fun _ => none) (fun _ => .error "e") (fun _ => 0) "0xR" "" "n" none).status = 402 ∧
     (goCreatePaymentContext (fun _ => 0) "0xR").amount = "0.001" ∧
     (goCreatePaymentContext (fun _ => 0) "0xR").nonce = uuidString (fun _ => 0) ∧
     ((goCreatePaymentContext (fun _ => 0) "0xR").nonce).length = 36) :=
  ⟨Or.inl rfl,
   missing_headers_402 (fun _ => none) (fun _ => .error "e") (fun _ => 0) "0xR" "" "n" none
     (Or.inl rfl)⟩

/-- Claim C1: on the (spec-modelled) cached metered route, for every cache
state a request with a missing header is answered 402 and never with the
cached value, a request with a failing verification is answered 403, never
with the cached value, and identically to what any other cache state — the
cache-miss path included — would produce; the cached value is served only
after the same verification call succeeds. -/
theorem cache_hit_never_bypasses_verification :
    ∀ (verify verify₂ : GoVerifyRequest → GoVerifyResponse)
      (cache cache₂ : Option String) (computed : String)
      (uuidBytes : Fin 16 → ℕ) (recipientAddr : String)
      (signature nonce signature₂ nonce₂ v : String),
      signature ≠ "" → nonce ≠ "" →
      (verify { context := gatewayContext recipientAddr nonce,
                signature := signature }).isValid = false →
      signature₂ ≠ "" → nonce₂ ≠ "" →
      (verify₂ { context := gatewayContext recipientAddr nonce₂,
                 signature := signature₂ }).isValid = true →
      (serveMetered verify cache computed uuidBytes recipientAddr "" nonce).status = 402 ∧
      serveMetered verify cache computed uuidBytes recipientAddr "" nonce ≠ .okCached v ∧
      (serveMetered verify cache computed uuidBytes recipientAddr signature "").status = 402 ∧
      serveMetered verify cache computed uuidBytes recipientAddr signature "" ≠ .okCached v ∧
      (serveMetered verify cache computed uuidBytes recipientAddr signature nonce).status = 403 ∧
      serveMetered verify cache computed uuidBytes recipientAddr signature nonce ≠ .okCached v ∧
      serveMetered verify cache computed uuidBytes recipientAddr signature nonce =
        serveMetered verify cache₂ computed uuidBytes recipientAddr signature nonce ∧
      serveMetered verify₂ (some v) computed uuidBytes recipientAddr signature₂ nonce₂ =
        .okCached v := by
  intro verify verify₂ cache cache₂ computed uuidBytes recipientAddr
    signature nonce signature₂ nonce₂ v hs hn hbad hs₂ hn₂ hgood
  have hmiss₁ : serveMetered verify cache computed uuidBytes recipientAddr "" nonce =
      .paymentRequired (goCreatePaymentContext uuidBytes recipientAddr) := by
    unfold serveMetered
    rw [if_pos (Or.inl rfl)]
  have hmiss₂ : serveMetered verify cache computed uuidBytes recipientAddr signature "" =
      .paymentRequired (goCreatePaymentContext uuidBytes recipientAddr) := by
    unfold serveMetered
    rw [if_pos (Or.inr rfl)]
  have hrej : serveMetered verify cache computed uuidBytes recipientAddr signature nonce =
      .invalidSignature (verify { context := gatewayContext recipientAddr nonce,
                                  signature := signature }).error := by
    unfold serveMetered
    rw [if_neg (by simp [hs, hn])]
    simp [hbad]
  have hrej₂ : serveMetered verify cache₂ computed uuidBytes recipientAddr signature nonce =
      .invalidSignature (verify { context := gatewayContext recipientAddr nonce,
                                  signature := signature }).error := by
    unfold serveMetered
    rw [if_neg (by simp [hs, hn])]
    simp [hbad]
  have hhit : serveMetered verify₂ (some v) computed uuidBytes recipientAddr signature₂ nonce₂ =
      .okCached v := by
    unfold serveMetered
    rw [if_neg (by simp [hs₂, hn₂])]
    simp [hgood]
  refine ⟨by rw [hmiss₁]; rfl, by rw [hmiss₁]; simp, by rw [hmiss₂]; rfl,
    by rw [hmiss₂]; simp, by rw [hrej]; rfl, by rw [hrej]; simp,
    by rw [hrej, hrej₂], hhit⟩

/-- Witness for C1: a cache already holding `CACHED`, one verifier that
rejects and one that accepts. -/
theorem cache_hit_never_bypasses_verification_witness :
    ("0xSig" : String) ≠ "" ∧ ("n" : String) ≠ "" ∧
    ((fun (_ : GoVerifyRequest) =>
        ({ isValid := false, recoveredAddress := "", error := "Invalid signature" } :
          GoVerifyResponse))
      { context := gatewayContext "0xR" "n", signature := "0xSig" }).isValid = false ∧
    ("0xValidSig" : String) ≠ "" ∧ ("n2" : String) ≠ "" ∧
    ((fun (_ : GoVerifyRequest) =>
        ({ isValid := true, recoveredAddress := "0xTestUser", error := "" } :
          GoVerifyResponse))
      { context := gatewayContext "0xR" "n2", signature := "0xValidSig" }).isValid = true ∧
    ((serveMetered (fun _ => { isValid := false, recoveredAddress := "", error := "Invalid signature" })
        (some "CACHED") "FRESH" (fun _ => 0) "0xR" "" "n").status = 402 ∧
     serveMetered (fun _ => { isValid := false, recoveredAddress := "", error := "Invalid signature" })
        (some "CACHED") "FRESH" (fun _ => 0) "0xR" "" "n" ≠ .okCached "CACHED" ∧
     (serveMetered (fun _ => { isValid := false, recoveredAddress := "", error := "Invalid signature" })
        (some "CACHED") "FRESH" (fun _ => 0) "0xR" "0xSig" "").status = 402 ∧
     serveMetered (fun _ => { isValid := false, recoveredAddress := "", error := "Invalid signature" })
        (some "CACHED") "FRESH" (fun _ => 0) "0xR" "0xSig" "" ≠ .okCached "CACHED" ∧
     (serveMetered (fun _ => { isValid := false, recoveredAddress := "", error := "Invalid signature" })
        (some "CACHED") "FRESH" (fun _ => 0) "0xR" "0xSig" "n").status = 403 ∧
     serveMetered (fun _ => { isValid := false, recoveredAddress := "", error := "Invalid signature" })
        (some "CACHED") "FRESH" (fun _ => 0) "0xR" "0xSig" "n" ≠ .okCached "CACHED" ∧
     serveMetered (fun _ => { isValid := false, recoveredAddress := "", error := "Invalid signature" })
        (some "CACHED") "FRESH" (fun _ => 0) "0xR" "0xSig" "n" =
       serveMetered (fun _ => { isValid := false, recoveredAddress := "", error := "Invalid signature" })
        none "FRESH" (fun _ => 0) "0xR" "0xSig" "n" ∧
     serveMetered (fun _ => { isValid := true, recoveredAddress := "0xTestUser", error := "" })
        (some "CACHED") "FRESH" (fun _ => 0) "0xR" "0xValidSig" "n2" =
       .okCached "CACHED") :=
  ⟨by decide, by decide, rfl, by decide, by decide, rfl,
   cache_hit_never_bypasses_verification
     (fun _ => { isValid := false, recoveredAddress := "", error := "Invalid signature" })
     (fun _ => { isValid := true, recoveredAddress := "0xTestUser", error := "" })
     (some "CACHED") none "FRESH" (fun _ => 0) "0xR" "0xSig" "n" "0xValidSig" "n2" "CACHED"
     (by decide) (by decide) rfl (by decide) (by decide) rfl⟩

/-- Claim C4 counterexample: the nonce store applies no expiry: a nonce
issued into the store at timestamp 0 and presented at an age of 1000000
seconds — far beyond the default 300 s expiry plus 60 s skew — is still
accepted (and consumed) by `verifyPayment`. -/
theorem stale_nonce_accepted_cex :
    ((verifyPayment (fun _ _ => some "0xA")
        (createPaymentContext "u1" 0 "0xR" "USDC" "0.001" 8453 []).2
        (createPaymentContext "u1" 0 "0xR" "USDC" "0.001" 8453 []).1 "sig").1.isValid = true) ∧
    (1000000 : Int) -
      (createPaymentContext "u1" 0 "0xR" "USDC" "0.001" 8453 []).1.timestamp > 300 + 60 := by
  decide

/-- Claim C4 (amended): the registry applies no expiry window and performs
no purge: for any present time, expiry and skew — even when the entry's age
exceeds `expiry + skew` — a stored nonce whose signature recovers is
accepted, and a store only ever changes by deletion of the presented
nonce. -/
theorem nonce_store_no_expiry :
    ∀ (now expiry skew : Int)
      (recover recover₂ : PaymentContext → String → Option String)
      (store store₂ : NonceStore) (ctx ctx₂ : PaymentContext) (sig sig₂ a : String),
      ctx.nonce ∈ store →
      recover ctx sig = some a →
      now - ctx.timestamp > expiry + skew →
      (verifyPayment recover store ctx sig).1.isValid = true ∧
      ((verifyPayment recover₂ store₂ ctx₂ sig₂).2 = store₂ ∨
       (verifyPayment recover₂ store₂ ctx₂ sig₂).2 = storeDelete store₂ ctx₂.nonce) := by
  intro now expiry skew recover recover₂ store store₂ ctx ctx₂ sig sig₂ a hmem hrec _
  constructor
  · simp [verifyPayment, hmem, hrec]
  · by_cases hm : ctx₂.nonce ∈ store₂
    · cases hr : recover₂ ctx₂ sig₂ <;> simp [verifyPayment, hm, hr]
    · left
      simp [verifyPayment, hm]

/-- Witness for C4 (amended) at age 1000000 s against a 300 s + 60 s window. -/
theorem nonce_store_no_expiry_witness :
    ctxA.nonce ∈ (["n1"] : NonceStore) ∧
    ((fun (_ : PaymentContext) (_ : String) => some "0xA") ctxA "s" = some "0xA") ∧
    ((1000000 : Int) - ctxA.timestamp > 300 + 60) ∧
    ((verifyPayment (fun _ _ => some "0xA") ["n1"] ctxA "s").1.isValid = true ∧
     ((verifyPayment (fun _ _ => none) ["n2"] ctxA "s2").2 = ["n2"] ∨
      (verifyPayment (fun _ _ => none) ["n2"] ctxA "s2").2 = storeDelete ["n2"] ctxA.nonce)) :=
  ⟨by decide, rfl, by decide,
   nonce_store_no_expiry 1000000 300 60 (fun _ _ => some "0xA") (fun _ _ => none)
     ["n1"] ["n2"] ctxA ctxA "s" "s2" "0xA" (by decide) rfl (by decide)⟩

/-- A deleted nonce is gone from the store. -/
theorem storeDelete_not_mem (store : NonceStore) (n : String) :
    n ∉ storeDelete store n := by
  simp [storeDelete]

/-- A run of calls all presenting a nonce absent from the store fails
throughout and leaves the store unchanged. -/
theorem runVerifyCalls_absent (recover : PaymentContext → String → Option String)
    (nonce : String) :
    ∀ (calls : List (PaymentContext × String)) (store : NonceStore),
      nonce ∉ store → (∀ c ∈ calls, c.1.nonce = nonce) →
      runVerifyCalls recover store calls = (List.replicate calls.length false, store) := by
  intro calls
  induction calls with
  | nil =>
    intro store _ _
    rfl
  | cons c rest ih =>
    intro store h1 h2
    have hn : c.1.nonce = nonce := h2 c (.head _)
    have hfail : verifyPayment recover store c.1 c.2 =
        ({ isValid := false, error := some "Invalid or expired nonce", signer := none },
         store) := by
      simp [verifyPayment, hn, h1]
    simp [runVerifyCalls, hfail, ih store h1 (fun d hd => h2 d (.tail _ hd)),
      List.replicate_succ]

/-- Claim C2: each nonce is single-use: with a stored (issued) nonce, a
nonempty run of verification calls all presenting that nonce with recovering
signatures succeeds exactly on the first call — every subsequent (replayed)
attempt returns false — and any call presenting a nonce absent from the
store (never issued) returns false. -/
theorem nonce_single_use :
    ∀ (recover recover₂ : PaymentContext → String → Option String)
      (store store₂ : NonceStore) (nonce : String)
      (c : PaymentContext × String) (rest : List (PaymentContext × String))
      (ctx₂ : PaymentContext) (sig₂ : String),
      nonce ∈ store →
      (∀ d ∈ c :: rest, d.1.nonce = nonce) →
      (∀ d ∈ c :: rest, (recover d.1 d.2).isSome = true) →
      ctx₂.nonce ∉ store₂ →
      (runVerifyCalls recover store (c :: rest)).1 =
        true :: List.replicate rest.length false ∧
      (runVerifyCalls recover store (c :: rest)).1.count true = 1 ∧
      (verifyPayment recover₂ store₂ ctx₂ sig₂).1.isValid = false := by
  intro recover recover₂ store store₂ nonce c rest ctx₂ sig₂ hmem hall hrec habs
  have hn : c.1.nonce = nonce := hall c (.head _)
  obtain ⟨sgn, hsgn⟩ := Option.isSome_iff_exists.mp (hrec c (.head _))
  have hfirst : verifyPayment recover store c.1 c.2 =
      ({ isValid := true, error := none, signer := some sgn },
       storeDelete store nonce) := by
    simp [verifyPayment, hn, hmem, hsgn]
  have hrun : runVerifyCalls recover store (c :: rest) =
      (true :: List.replicate rest.length false, storeDelete store nonce) := by
    simp [runVerifyCalls, hfirst,
      runVerifyCalls_absent recover nonce rest (storeDelete store nonce)
        (storeDelete_not_mem store nonce) (fun d hd => hall d (.tail _ hd))]
  refine ⟨by rw [hrun], by rw [hrun]; simp [List.count_replicate], by simp [verifyPayment, habs]⟩

/-- Witness for C2: nonce `n1` stored once, three calls presenting it with a
recovering signature, and one call on an empty store. -/
theorem nonce_single_use_witness :
    ("n1" : String) ∈ (["n1"] : NonceStore) ∧
    (∀ d ∈ [(ctxA, "s1"), (ctxA, "s2"), (ctxA, "s3")], d.1.nonce = "n1") ∧
    (∀ d ∈ [(ctxA, "s1"), (ctxA, "s2"), (ctxA, "s3")],
        ((fun (_ : PaymentContext) (_ : String) => some "0xA") d.1 d.2).isSome = true) ∧
    ctxA.nonce ∉ ([] : NonceStore) ∧
    ((runVerifyCalls (fun _ _ => some "0xA") ["n1"]
        ((ctxA, "s1") :: [(ctxA, "s2"), (ctxA, "s3")])).1 =
      true :: List.replicate [(ctxA, "s2"), (ctxA, "s3")].length false ∧
     (runVerifyCalls (fun _ _ => some "0xA") ["n1"]
        ((ctxA, "s1") :: [(ctxA, "s2"), (ctxA, "s3")])).1.count true = 1 ∧
     (verifyPayment (fun _ _ => none) [] ctxA "s4").1.isValid = false) :=
  ⟨by decide, by decide, by decide, by decide,
   nonce_single_use (fun _ _ => some "0xA") (fun _ _ => none) ["n1"] [] "n1"
     (ctxA, "s1") [(ctxA, "s2"), (ctxA, "s3")] ctxA "s4"
     (by decide) (by decide) (by decide) (by decide)⟩

/-- The configured refill rate is always strictly positive. -/
theorem NewTokenBucket_rate_pos (rpm burst : Int) :
    0 < (NewTokenBucket rpm burst).rate := by
  have h : (NewTokenBucket rpm burst).rate =
      ((if rpm ≤ 0 then 1 else rpm : Int) : ℚ) / 60 := rfl
  rw [h]
  by_cases hr : rpm ≤ 0
  · rw [if_pos hr]
    norm_num
  · rw [if_neg hr]
    have : (0 : ℚ) < ((rpm : Int) : ℚ) := by exact_mod_cast lt_of_not_le hr
    positivity

/-- One bucket operation keeps the token count within `[0, burst]` and
leaves `lastCheck` no later than the operation's instant. -/
theorem stepBucket_preserves (tb : TokenBucket) (b : Bucket) (op : BucketOp)
    (hrate : 0 ≤ tb.rate) (h0 : 0 ≤ b.tokens) (h1 : b.tokens ≤ (tb.burst : ℚ))
    (ht : b.lastCheck ≤ op.time) :
    (0 ≤ (stepBucket tb b op).tokens ∧ (stepBucket tb b op).tokens ≤ (tb.burst : ℚ)) ∧
      (stepBucket tb b op).lastCheck ≤ op.time := by
  cases op with
  | allowOp now n =>
    have htn : b.lastCheck ≤ now := ht
    have hre : 0 ≤ (now - b.lastCheck) * tb.rate :=
      mul_nonneg (by linarith) hrate
    have hmin0 : 0 ≤ min (tb.burst : ℚ) (b.tokens + (now - b.lastCheck) * tb.rate) :=
      le_min (by positivity) (by linarith)
    have hminb : min (tb.burst : ℚ) (b.tokens + (now - b.lastCheck) * tb.rate) ≤
        (tb.burst : ℚ) := min_le_left _ _
    have hn0 : (0 : ℚ) ≤ (n : ℚ) := Nat.cast_nonneg n
    simp only [stepBucket, allowN, BucketOp.time]
    split
    · rename_i hcond
      exact ⟨⟨by simpa using sub_nonneg.mpr hcond, by dsimp only; linarith⟩, le_refl _⟩
    · exact ⟨⟨hmin0, hminb⟩, le_refl _⟩
  | remainingOp now =>
    exact ⟨⟨h0, h1⟩, ht⟩
  | resetOp now =>
    have hb : (getResetTime tb b now).2 = b := by
      simp only [getResetTime]
      split <;> rfl
    simp only [stepBucket, hb, BucketOp.time]
    exact ⟨⟨h0, h1⟩, ht⟩

/-- Along any chronologically ordered run, every observation point keeps
the token count within `[0, burst]`. -/
theorem statesOf_inv (tb : TokenBucket) (hrate : 0 ≤ tb.rate) :
    ∀ (ops : List BucketOp) (b : Bucket) (t : ℚ),
      0 ≤ b.tokens → b.tokens ≤ (tb.burst : ℚ) → b.lastCheck ≤ t → chron t ops →
      ∀ s ∈ statesOf tb b ops, 0 ≤ s.tokens ∧ s.tokens ≤ (tb.burst : ℚ) := by
  intro ops
  induction ops with
  | nil =>
    intro b t h0 h1 _ _ s hs
    simp only [statesOf, List.mem_singleton] at hs
    subst hs
    exact ⟨h0, h1⟩
  | cons op rest ih =>
    intro b t h0 h1 ht hc s hs
    obtain ⟨hto, hcr⟩ := hc
    have hpre := stepBucket_preserves tb b op hrate h0 h1 (le_trans ht hto)
    simp only [statesOf, List.mem_cons] at hs
    rcases hs with rfl | hs
    · exact ⟨h0, h1⟩
    · exact ih (stepBucket tb b op) op.time hpre.1.1 hpre.1.2 hpre.2 hcr s hs

/-- From a bucket holding `m` whole tokens, `k ≤ m` consecutive `Allow`
calls at one instant all succeed and leave `m - k` tokens. -/
theorem repeatAllow_run (tb : TokenBucket) (now : ℚ) :
    ∀ (k m : ℕ), k ≤ m → (m : ℚ) ≤ (tb.burst : ℚ) →
      repeatAllow tb { tokens := (m : ℚ), lastCheck := now } now k =
        (List.replicate k true, { tokens := ((m - k : ℕ) : ℚ), lastCheck := now }) := by
  intro k
  induction k with
  | zero =>
    intro m _ _
    simp [repeatAllow]
  | succ k ih =>
    intro m hk hm
    have hm1 : 1 ≤ m := le_trans (Nat.succ_le_succ (Nat.zero_le k)) hk
    have hcast : ((1 : ℕ) : ℚ) ≤ (m : ℚ) := by exact_mod_cast hm1
    have hstep : allow tb { tokens := (m : ℚ), lastCheck := now } now =
        (true, { tokens := ((m - 1 : ℕ) : ℚ), lastCheck := now }) := by
      simp only [allow, allowN]
      rw [sub_self, zero_mul, add_zero, min_eq_right hm, if_pos hcast]
      have hsub : ((m - 1 : ℕ) : ℚ) = (m : ℚ) - ((1 : ℕ) : ℚ) := by
        push_cast [hm1]
        ring
      rw [hsub]
    have hcast₂ : ((m - 1 : ℕ) : ℚ) ≤ (tb.burst : ℚ) :=
      le_trans (by exact_mod_cast Nat.sub_le m 1) hm
    have hnn : m - 1 - k = m - (k + 1) := by omega
    simp only [repeatAllow, hstep]
    rw [ih (m - 1) (by omega) hcast₂, hnn]
    simp [List.replicate_succ]

/-- Claim C7: bucket conservation: along every chronologically ordered
sequence of Allow/AllowN/GetRemaining/GetResetTime operations the token
count stays within `[0, burst]` at every observation point; from a fresh
bucket with no elapsed time, `burst` consecutive `Allow` calls all succeed
and the next one is denied; and reading `GetRemaining` exactly
`burst / rate` seconds after the bucket emptied returns `burst`. -/
theorem bucket_conservation :
    ∀ (rpm burst₀ : Int) (b : Bucket) (t now t₂ : ℚ) (ops : List BucketOp) (s : Bucket),
      0 ≤ b.tokens → b.tokens ≤ ((NewTokenBucket rpm burst₀).burst : ℚ) →
      b.lastCheck ≤ t → chron t ops →
      s ∈ statesOf (NewTokenBucket rpm burst₀) b ops →
      (0 ≤ s.tokens ∧ s.tokens ≤ ((NewTokenBucket rpm burst₀).burst : ℚ)) ∧
      (repeatAllow (NewTokenBucket rpm burst₀) (newBucket (NewTokenBucket rpm burst₀) now) now
          (NewTokenBucket rpm burst₀).burst).1 =
        List.replicate (NewTokenBucket rpm burst₀).burst true ∧
      (allow (NewTokenBucket rpm burst₀)
          (repeatAllow (NewTokenBucket rpm burst₀) (newBucket (NewTokenBucket rpm burst₀) now) now
            (NewTokenBucket rpm burst₀).burst).2 now).1 = false ∧
      (getRemaining (NewTokenBucket rpm burst₀) { tokens := 0, lastCheck := t₂ }
          (t₂ + ((NewTokenBucket rpm burst₀).burst : ℚ) / (NewTokenBucket rpm burst₀).rate)).1 =
        ((NewTokenBucket rpm burst₀).burst : ℤ) := by
  intro rpm burst₀ b t now t₂ ops s h0 h1 ht hc hs
  have hrate : 0 < (NewTokenBucket rpm burst₀).rate := NewTokenBucket_rate_pos rpm burst₀
  have hrun := repeatAllow_run (NewTokenBucket rpm burst₀) now
    (NewTokenBucket rpm burst₀).burst (NewTokenBucket rpm burst₀).burst
    (le_refl _) (le_refl _)
  refine ⟨statesOf_inv (NewTokenBucket rpm burst₀) (le_of_lt hrate) ops b t h0 h1 ht hc s hs,
    ?_, ?_, ?_⟩
  · show (repeatAllow (NewTokenBucket rpm burst₀)
        { tokens := ((NewTokenBucket rpm burst₀).burst : ℚ), lastCheck := now } now
        (NewTokenBucket rpm burst₀).burst).1 =
      List.replicate (NewTokenBucket rpm burst₀).burst true
    rw [hrun]
  · show (allow (NewTokenBucket rpm burst₀)
        (repeatAllow (NewTokenBucket rpm burst₀)
          { tokens := ((NewTokenBucket rpm burst₀).burst : ℚ), lastCheck := now } now
          (NewTokenBucket rpm burst₀).burst).2 now).1 = false
    rw [hrun]
    simp only [Nat.sub_self, Nat.cast_zero, allow, allowN]
    rw [sub_self, zero_mul, add_zero, min_eq_right (Nat.cast_nonneg _),
      if_neg (by norm_num)]
  · simp only [getRemaining]
    have hform : (0 : ℚ) +
        (t₂ + ((NewTokenBucket rpm burst₀).burst : ℚ) / (NewTokenBucket rpm burst₀).rate - t₂) *
          (NewTokenBucket rpm burst₀).rate =
        ((NewTokenBucket rpm burst₀).burst : ℚ) := by
      field_simp
      ring
    rw [hform, min_self, Int.floor_natCast]

/-- A fresh concrete bucket used by the C7 witness. -/
def bW : Bucket := { tokens := 5, lastCheck := 0 }

/-- A concrete chronological operation list used by the C7 witness. -/
def opsW : List BucketOp := [.allowOp 1 1, .remainingOp 2]

/-- Witness for C7 at `rpm = 10`, `burst = 5` on a two-operation run. -/
theorem bucket_conservation_witness :
    (0 : ℚ) ≤ bW.tokens ∧ bW.tokens ≤ ((NewTokenBucket 10 5).burst : ℚ) ∧
    bW.lastCheck ≤ (0 : ℚ) ∧ chron 0 opsW ∧
    bW ∈ statesOf (NewTokenBucket 10 5) bW opsW ∧
    ((0 ≤ bW.tokens ∧ bW.tokens ≤ ((NewTokenBucket 10 5).burst : ℚ)) ∧
     (repeatAllow (NewTokenBucket 10 5) (newBucket (NewTokenBucket 10 5) 7) 7
         (NewTokenBucket 10 5).burst).1 =
       List.replicate (NewTokenBucket 10 5).burst true ∧
     (allow (NewTokenBucket 10 5)
         (repeatAllow (NewTokenBucket 10 5) (newBucket (NewTokenBucket 10 5) 7) 7
           (NewTokenBucket 10 5).burst).2 7).1 = false ∧
     (getRemaining (NewTokenBucket 10 5) { tokens := 0, lastCheck := 9 }
         (9 + ((NewTokenBucket 10 5).burst : ℚ) / (NewTokenBucket 10 5).rate)).1 =
       ((NewTokenBucket 10 5).burst : ℤ)) :=
  ⟨by norm_num [bW], by norm_num [bW, NewTokenBucket], by norm_num [bW],
   by norm_num [chron, opsW, BucketOp.time],
   by simp [statesOf, opsW],
   bucket_conservation 10 5 bW 0 7 9 opsW bW (by norm_num [bW])
     (by norm_num [bW, NewTokenBucket]) (by norm_num [bW])
     (by norm_num [chron, opsW, BucketOp.time]) (by simp [statesOf, opsW])⟩

end Paygate
